import Mathlib

/-!
Verification development for the clean_coder_integration package
(`requirements_analyzer.py`, `github_analyzer.py`, `slack_integration.py`,
`clean_coder_planner.py`).  Python text values are modelled as `List Char`,
dictionaries for implementation steps as the structure `Step`, and the
pure computational content of each method as an executable Lean function.
Subprocess / network access points (git history, file reads, the Slack
client) are passed in as explicit parameters.
-/

/-! ### Text utilities mirroring the Python string operations used -/

/-- Characters of a string literal. -/
def chars (s : String) : List Char := s.data

/-- Python `str.lower()` restricted to the ASCII range, which is the only
range the analyzed code feeds it. -/
def lowerStr (l : List Char) : List Char := l.map Char.toLower

/-- The whitespace class of Python `str.strip()` / regex `\s`. -/
def isPySpace (c : Char) : Bool :=
  c = ' ' || c = '\t' || c = '\n' || c = '\r' || c = '\x0b' || c = '\x0c'

/-- Python `str.strip()`. -/
def stripChars (l : List Char) : List Char :=
  ((l.dropWhile isPySpace).reverse.dropWhile isPySpace).reverse

/-- `listStarts p l` : `p` is an initial segment of `l`. -/
def listStarts : List Char → List Char → Bool
  | [], _ => true
  | _ :: _, [] => false
  | a :: as, b :: bs => a == b && listStarts as bs

/-- Python `needle in hay` substring test. -/
def listHas : List Char → List Char → Bool
  | [], needle => needle.isEmpty
  | c :: rest, needle => listStarts needle (c :: rest) || listHas rest needle

/-- Python `str.endswith`. -/
def listEnds (l suf : List Char) : Bool := listStarts suf.reverse l.reverse

/-- Prepend a character to the first piece of a split result. -/
def consHead (c : Char) : List (List Char) → List (List Char)
  | [] => [[c]]
  | s :: ss => (c :: s) :: ss

/-- Python `str.split('\n')`. -/
def splitNL : List Char → List (List Char)
  | [] => [[]]
  | '\n' :: rest => [] :: splitNL rest
  | c :: rest => consHead c (splitNL rest)

/-- Python `str.split('\n\n')` (leftmost, non-overlapping). -/
def splitNN : List Char → List (List Char)
  | [] => [[]]
  | '\n' :: '\n' :: rest => [] :: splitNN rest
  | c :: rest => consHead c (splitNN rest)

/-- Python `'\n'.join`. -/
def joinNL : List (List Char) → List Char
  | [] => []
  | [x] => x
  | x :: xs => x ++ '\n' :: joinNL xs

/-- One separator step of `re.split(r'##\s+', ...)`: two hashes followed
by a maximal non-empty whitespace run. -/
def splitHashSep : List Char → Option (List Char)
  | '#' :: '#' :: c :: rest =>
    if isPySpace c then some (rest.dropWhile isPySpace) else none
  | _ => none

/-- Fuel-driven scanner for `re.split(r'##\s+', ...)`. -/
def splitSectionsGo : Nat → List Char → List (List Char)
  | 0, l => [l]
  | fuel + 1, l =>
    match splitHashSep l with
    | some rest => [] :: splitSectionsGo fuel rest
    | none =>
      match l with
      | [] => [[]]
      | c :: rest => consHead c (splitSectionsGo fuel rest)

/-- Python `re.split(r'##\s+', content)`. -/
def splitSections (l : List Char) : List (List Char) :=
  splitSectionsGo (l.length + 1) l

/-- A regex `\w` character (`[A-Za-z0-9_]`; the analyzed texts are ASCII). -/
def isWordChar (c : Char) : Bool := c.isAlphanum || c == '_'

/-- Accumulating scanner behind `wordsOf`. -/
def wordsOfGo : List Char → List Char → List (List Char)
  | [], acc => if acc.isEmpty then [] else [acc.reverse]
  | c :: rest, acc =>
    if isWordChar c then wordsOfGo rest (c :: acc)
    else if acc.isEmpty then wordsOfGo rest []
    else acc.reverse :: wordsOfGo rest []

/-- Python `re.findall(r'\b\w+\b', text)`: the maximal word-character runs. -/
def wordsOf (l : List Char) : List (List Char) := wordsOfGo l []

/-- Decimal rendering of a natural number, as Python `str(n)`. -/
def natChars (n : Nat) : List Char := Nat.toDigits 10 n

/-- Decimal rendering of an integer, as Python `str(n)`. -/
def intChars (n : Int) : List Char :=
  if n < 0 then '-' :: natChars (-n).toNat else natChars n.toNat

/-! ### Exact rational arithmetic on integer pairs

The numeric code under analysis divides Python ints, producing floats.
Rationals are represented here as unnormalized `num / den` pairs of
integers with a positive denominator (every constructor below keeps the
denominator positive as long as no division by zero occurs, and the
analyzed code guards all its divisions).  This avoids `Rat`, whose
normalization does not evaluate under kernel reduction. -/

structure Frac where
  num : Int
  den : Int
deriving DecidableEq

/-- The rational `n / 1`. -/
def Frac.ofInt (n : Int) : Frac := ⟨n, 1⟩

/-- The rational `n / 1` for a natural `n`. -/
def Frac.ofNat (n : Nat) : Frac := ⟨(n : Int), 1⟩

/-- Strict comparison (valid for positive denominators). -/
def Frac.blt (a b : Frac) : Bool := a.num * b.den < b.num * a.den

/-- Non-strict comparison (valid for positive denominators). -/
def Frac.ble (a b : Frac) : Bool := a.num * b.den ≤ b.num * a.den

def Frac.mul (a b : Frac) : Frac := ⟨a.num * b.num, a.den * b.den⟩

def Frac.sub (a b : Frac) : Frac := ⟨a.num * b.den - b.num * a.den, a.den * b.den⟩

def Frac.add (a b : Frac) : Frac := ⟨a.num * b.den + b.num * a.den, a.den * b.den⟩

def Frac.neg (a : Frac) : Frac := ⟨-a.num, a.den⟩

/-- Reciprocal, keeping the denominator positive for nonzero input. -/
def Frac.inv (a : Frac) : Frac := if a.num < 0 then ⟨-a.den, -a.num⟩ else ⟨a.den, a.num⟩

def Frac.div (a b : Frac) : Frac := a.mul b.inv

/-- Floor (valid for positive denominators). -/
def Frac.floor (a : Frac) : Int := Int.fdiv a.num a.den

/-! ### IEEE binary64 rounding model

The progress-percentage arithmetic in `slack_integration.py` runs on
CPython floats (IEEE binary64, round to nearest, ties to even).  The
values appearing there are normal and far from overflow, so rounding a
rational to binary64 is: scale by the power of two that puts the
significand in `[2^52, 2^53)` and round to an integer, ties to even. -/

/-- `2 ^ e` for an integer exponent. -/
def pow2 (e : Int) : Frac :=
  if 0 ≤ e then ⟨((2 : Int) ^ e.toNat), 1⟩ else ⟨1, ((2 : Int) ^ (-e).toNat)⟩

/-- Fuel-driven binary logarithm: for `q` in `[2^a, 2^(a+1))` returns `a`. -/
def ilog2go : Nat → Frac → Int
  | 0, _ => 0
  | fuel + 1, q =>
    if q.blt ⟨1, 1⟩ then ilog2go fuel (q.mul ⟨2, 1⟩) - 1
    else if Frac.ble ⟨2, 1⟩ q then ilog2go fuel (q.mul ⟨1, 2⟩) + 1
    else 0

/-- Binary logarithm with fuel covering the whole binary64 range. -/
def ilog2 (q : Frac) : Int := ilog2go 4200 q

/-- Round to the nearest integer, ties to even. -/
def rnte (x : Frac) : Int :=
  let n := x.floor
  let r := x.sub (Frac.ofInt n)
  if r.blt ⟨1, 2⟩ then n
  else if Frac.blt ⟨1, 2⟩ r then n + 1
  else if n % 2 = 0 then n else n + 1

/-- Round a rational to the nearest IEEE binary64 value (normal range). -/
def roundDouble (q : Frac) : Frac :=
  if q.num = 0 then ⟨0, 1⟩
  else
    let s : Frac := if q.blt ⟨0, 1⟩ then ⟨-1, 1⟩ else ⟨1, 1⟩
    let a := if q.blt ⟨0, 1⟩ then q.neg else q
    let g := pow2 (ilog2 a - 52)
    s.mul ((Frac.ofInt (rnte (a.div g))).mul g)

/-- Python `int(x)` for a float value: truncation toward zero. -/
def pyTrunc (q : Frac) : Int := if q.blt ⟨0, 1⟩ then -(q.neg.floor) else q.floor

/-- Correctly rounded float division of exactly representable operands. -/
def pyDiv (a b : Frac) : Frac := roundDouble (a.div b)

/-- Correctly rounded float multiplication of exactly representable operands. -/
def pyMul (a b : Frac) : Frac := roundDouble (a.mul b)

/-! ### Implementation-step records

Python passes steps around as dictionaries.  The keys that the four
modules read or write are modelled as fields; keys that may be absent
are `Option`-valued, mirroring `dict.get`. -/

structure Step where
  description : List Char
  completed : Bool
  category : Option (List Char) := none
  source : Option (List Char) := none
  completion_method : Option (List Char) := none
  relevant_file : Option (List Char) := none
  id : Option (List Char) := none
  order : Option Nat := none
deriving DecidableEq

/-- `step.get("category", "general")`. -/
def getCategory (s : Step) : List Char := s.category.getD ("general".data)

/-- `step.get("id", "unknown")`. -/
def getId (s : Step) : List Char := s.id.getD ("unknown".data)

/-- `step.get("order", 0)`. -/
def getOrder (s : Step) : Nat := s.order.getD 0

/-! ### `github_analyzer.py`: `GitHubAnalyzer` -/

/-- The `common_words` stop-word set of `GitHubAnalyzer._extract_keywords`. -/
def common_words : List (List Char) :=
  ["a".data, "an".data, "the".data, "and".data, "or".data, "but".data,
   "if".data, "then".data, "else".data, "when".data,
   "at".data, "from".data, "by".data, "for".data, "with".data,
   "about".data, "against".data, "between".data,
   "into".data, "through".data, "during".data, "before".data,
   "after".data, "above".data, "below".data,
   "to".data, "of".data, "in".data, "on".data, "is".data, "are".data,
   "was".data, "were".data, "be".data, "been".data,
   "being".data, "have".data, "has".data, "had".data, "do".data,
   "does".data, "did".data, "will".data, "would".data,
   "shall".data, "should".data, "may".data, "might".data, "must".data,
   "can".data, "could".data, "implement".data,
   "set".data, "up".data, "create".data, "add".data, "build".data,
   "develop".data, "make".data, "ui".data]

/-- `GitHubAnalyzer._extract_keywords`: word tokens of the lower-cased text
that are not stop words and are longer than 2 characters, as a set.  The
Python set comprehension is modelled as a deduplicated list (set iteration
order is unspecified in the source). -/
def extract_keywords (text : List Char) : List (List Char) :=
  ((wordsOf (lowerStr text)).filter
    (fun w => !common_words.contains w && decide (2 < w.length))).dedup

/-- `GitHubAnalyzer._has_enough_keywords`: the fraction of keywords that
occur as substrings of `text` reaches `threshold` (default 0.5); an empty
keyword set never matches.  CPython divides with binary64 floats; for the
keyword-set sizes any Python step can produce (below `2 ^ 53`) the float
comparison against 0.5 agrees with the exact rational comparison modelled
here. -/
def has_enough_keywords (text : List Char) (keywords : List (List Char))
    (threshold : Frac := ⟨1, 2⟩) : Bool :=
  if keywords.isEmpty then false
  else
    threshold.ble
      ((Frac.ofNat (keywords.countP (fun k => listHas text k))).div
        (Frac.ofNat keywords.length))

/-- Substring patterns of `GitHubAnalyzer._is_relevant_file` (the regexes
without an anchor). -/
def excluded_substrings : List (List Char) :=
  [".git/".data, ".github/".data, "node_modules/".data, "__pycache__/".data,
   ".vscode/".data, ".idea/".data, ".DS_Store".data, ".env".data]

/-- Suffix patterns of `GitHubAnalyzer._is_relevant_file` (the regexes
anchored with `$`). -/
def excluded_suffixes : List (List Char) :=
  [".log".data, ".md".data, ".json".data, ".lock".data, ".txt".data,
   ".csv".data, ".yml".data, ".yaml".data, ".toml".data, ".ini".data,
   ".cfg".data]

/-- `GitHubAnalyzer._is_relevant_file`. -/
def is_relevant_file (p : List Char) : Bool :=
  !(excluded_substrings.any (fun s => listHas p s) ||
    excluded_suffixes.any (fun s => listEnds p s))

/-- The per-step body of `GitHubAnalyzer.analyze_implementation_progress`:
a completed step is passed through; otherwise commit messages are scanned
first, then the contents of relevant changed files.  `commit_messages`,
`changed_files` and `file_content` stand for the data the analyzer reads
from git (iteration order of the changed-file set is whatever order the
caller supplies, as in the source). -/
def update_step (commit_messages changed_files : List (List Char))
    (file_content : List Char → List Char) (step : Step) : Step :=
  if step.completed then step
  else
    let keywords := extract_keywords (lowerStr step.description)
    if commit_messages.any (fun m => has_enough_keywords (lowerStr m) keywords) then
      { step with completed := true, completion_method := some ("commit_message".data) }
    else
      match (changed_files.filter is_relevant_file).find?
          (fun f => has_enough_keywords (lowerStr (file_content f)) keywords) with
      | some f =>
        { step with
          completed := true
          completion_method := some ("file_content".data)
          relevant_file := some f }
      | none => step

/-- `GitHubAnalyzer.analyze_implementation_progress` on the supplied
git data. -/
def analyze_implementation_progress (commit_messages changed_files : List (List Char))
    (file_content : List Char → List Char) (steps : List Step) : List Step :=
  steps.map (update_step commit_messages changed_files file_content)

/-! ### `requirements_analyzer.py`: `RequirementsAnalyzer` -/

/-- Requirement categories used by `RequirementsAnalyzer.extract_requirements`. -/
inductive Cat where
  | functional
  | technical
  | ui
  | architecture
deriving DecidableEq

/-- Title keywords for the `functional` category. -/
def functional_keywords : List (List Char) :=
  ["feature".data, "functionality".data, "capabilities".data]

/-- Title keywords for the `technical` category. -/
def technical_keywords : List (List Char) :=
  ["technical".data, "implementation".data, "technology".data]

/-- Title keywords for the `ui` category. -/
def ui_keywords : List (List Char) :=
  ["ui".data, "interface".data, "user experience".data]

/-- Title keywords for the `architecture` category. -/
def architecture_keywords : List (List Char) :=
  ["architecture".data, "structure".data, "design".data]

/-- The `if`/`elif` classification chain of
`RequirementsAnalyzer.extract_requirements` (lines 77-84): the first
keyword set with a member occurring in the lower-cased section title
wins; an unmatched title is dropped. -/
def categorize_title (title : List Char) : Option Cat :=
  let t := lowerStr title
  if functional_keywords.any (fun k => listHas t k) then some Cat.functional
  else if technical_keywords.any (fun k => listHas t k) then some Cat.technical
  else if ui_keywords.any (fun k => listHas t k) then some Cat.ui
  else if architecture_keywords.any (fun k => listHas t k) then some Cat.architecture
  else none

/-- Require at least one whitespace character, then drop the rest of the
run (regex `\s+`). -/
def dropWs1 : List Char → Option (List Char)
  | c :: rest => if isPySpace c then some (rest.dropWhile isPySpace) else none
  | [] => none

/-- One line of `re.findall(r'^\s*(?:[-*+]|\d+\.)\s+(.*?)$', text, re.MULTILINE)`
in `RequirementsAnalyzer._extract_list_items` (the analyzed inputs keep
every match within a single line). -/
def parse_item_line (line : List Char) : Option (List Char) :=
  let l := line.dropWhile isPySpace
  match l with
  | c :: rest =>
    if c = '-' || c = '*' || c = '+' then dropWs1 rest
    else
      let digits := l.takeWhile Char.isDigit
      if digits.isEmpty then none
      else
        match l.dropWhile Char.isDigit with
        | '.' :: rest2 => dropWs1 rest2
        | _ => none
  | [] => none

/-- `RequirementsAnalyzer._extract_list_items`: explicit list items plus
blank-line-delimited paragraphs, stripped, empties dropped. -/
def extract_list_items (text : List Char) : List (List Char) :=
  let list_items := (splitNL text).filterMap parse_item_line
  let paragraphs := ((splitNN text).map stripChars).filter (fun p => !p.isEmpty)
  ((list_items ++ paragraphs).map stripChars).filter (fun i => !i.isEmpty)

/-- The four category lists built by `RequirementsAnalyzer.extract_requirements`. -/
structure Reqs where
  functional : List (List Char)
  technical : List (List Char)
  ui : List (List Char)
  architecture : List (List Char)
deriving DecidableEq

/-- Append freshly extracted items to one category list. -/
def addToCat (r : Reqs) (c : Cat) (items : List (List Char)) : Reqs :=
  match c with
  | Cat.functional => { r with functional := r.functional ++ items }
  | Cat.technical => { r with technical := r.technical ++ items }
  | Cat.ui => { r with ui := r.ui ++ items }
  | Cat.architecture => { r with architecture := r.architecture ++ items }

/-- The final clean-up of `extract_requirements`:
`list(set(req for req in requirements[category] if req))`.  The Python
set's iteration order is unspecified; the model keeps one occurrence per
distinct item. -/
def dedupNonEmpty (l : List (List Char)) : List (List Char) :=
  (l.filter (fun i => !i.isEmpty)).dedup

/-- `RequirementsAnalyzer.extract_requirements` over loaded documents
(`filename`/`content` pairs). -/
def extract_requirements (docs : List (List Char × List Char)) : Reqs :=
  let raw := docs.foldl (fun acc doc =>
    (splitSections doc.2).foldl (fun acc sec =>
      if (stripChars sec).isEmpty then acc
      else
        let lines := splitNL sec
        let title := stripChars (lines.headD [])
        let body := stripChars (joinNL lines.tail)
        match categorize_title title with
        | some c => addToCat acc c (extract_list_items body)
        | none => acc) acc) ⟨[], [], [], []⟩
  ⟨dedupNonEmpty raw.functional, dedupNonEmpty raw.technical,
   dedupNonEmpty raw.ui, dedupNonEmpty raw.architecture⟩

/-- One line of `re.findall(r'^\s*[-*+]\s+\[([ xX])\]\s+(.*?)$', content,
re.MULTILINE)` in `RequirementsAnalyzer._extract_implementation_steps`:
checkbox state and description. -/
def parse_task_line (line : List Char) : Option (Bool × List Char) :=
  let l := line.dropWhile isPySpace
  match l with
  | c :: rest =>
    if c = '-' || c = '*' || c = '+' then
      match dropWs1 rest with
      | some l2 =>
        match l2 with
        | '[' :: st :: ']' :: rest3 =>
          if st = ' ' || st = 'x' || st = 'X' then
            match dropWs1 rest3 with
            | some desc => some (st == 'x' || st == 'X', desc)
            | none => none
          else none
        | _ => none
      | none => none
    else none
  | [] => none

/-- One line of `re.findall(r'^\s*(\d+)\.?\s+(.*?)$', content, re.MULTILINE)`
in `RequirementsAnalyzer._extract_implementation_steps`: a numbered item. -/
def parse_numbered_line (line : List Char) : Option (List Char) :=
  let l := line.dropWhile isPySpace
  let digits := l.takeWhile Char.isDigit
  if digits.isEmpty then none
  else
    let rest := l.dropWhile Char.isDigit
    let rest2 := match rest with
      | '.' :: r => r
      | r => r
    dropWs1 rest2

/-- `RequirementsAnalyzer._extract_implementation_steps`: checkbox task
lines, else numbered lines defaulting to incomplete. -/
def extract_implementation_steps (content : List Char) : List Step :=
  let tasks := (splitNL content).filterMap parse_task_line
  let steps := tasks.map (fun t =>
    ({ description := stripChars t.2, completed := t.1,
       source := some "documentation".data } : Step))
  if steps.isEmpty then
    ((splitNL content).filterMap parse_numbered_line).map (fun d =>
      ({ description := stripChars d, completed := false,
         source := some "documentation".data } : Step))
  else steps

/-- `RequirementsAnalyzer._generate_steps_from_requirements`. -/
def generate_steps_from_requirements (r : Reqs) : List Step :=
  r.functional.map (fun q =>
    ({ description := "Implement ".data ++ q, completed := false,
       source := some "generated".data, category := some "functional".data } : Step))
  ++ r.technical.map (fun q =>
    ({ description := "Implement ".data ++ q, completed := false,
       source := some "generated".data, category := some "technical".data } : Step))
  ++ r.ui.map (fun q =>
    ({ description := "Implement UI for ".data ++ q, completed := false,
       source := some "generated".data, category := some "ui".data } : Step))
  ++ r.architecture.map (fun q =>
    ({ description := "Set up ".data ++ q, completed := false,
       source := some "generated".data, category := some "architecture".data } : Step))

/-- `RequirementsAnalyzer.load_docs`: list the docs folder and read every
`.md` file.  A missing or unreadable folder raises inside the `try`, which
the method catches, returning `{}`; the possible failure of the directory
listing is the `Except` argument. -/
def load_docs (listing : Except Unit (List (List Char × List Char))) :
    List (List Char × List Char) :=
  match listing with
  | Except.error _ => []
  | Except.ok entries => entries.filter (fun e => listEnds e.1 ".md".data)

/-- `RequirementsAnalyzer.generate_implementation_steps` on loaded docs:
steps found in plan-like documents, else steps generated from the
extracted requirements. -/
def generate_implementation_steps (docs : List (List Char × List Char)) : List Step :=
  let reqs := extract_requirements docs
  let fromDocs := docs.foldl (fun acc doc =>
    if listHas (lowerStr doc.1) "implementation".data ||
       listHas (lowerStr doc.1) "plan".data then
      acc ++ extract_implementation_steps doc.2
    else acc) []
  if fromDocs.isEmpty then generate_steps_from_requirements reqs else fromDocs

/-- `RequirementsAnalyzer.generate_implementation_steps` including the
`load_docs` call it starts with. -/
def generate_implementation_steps_from_listing
    (listing : Except Unit (List (List Char × List Char))) : List Step :=
  generate_implementation_steps (load_docs listing)

/-- Python `str.capitalize()`: first character upper-cased, the rest
lower-cased (ASCII range). -/
def capitalizeStr (l : List Char) : List Char :=
  match l with
  | [] => []
  | c :: rest => c.toUpper :: lowerStr rest

/-- The grouping loop of `RequirementsAnalyzer.save_implementation_plan`:
steps grouped by `step.get("category", "general")`, categories in first-
appearance order (Python dicts preserve insertion order). -/
def group_categories (steps : List Step) : List (List Char × List Step) :=
  steps.foldl (fun acc s =>
    let c := getCategory s
    if acc.any (fun p => p.1 == c) then
      acc.map (fun p => if p.1 == c then (p.1, p.2 ++ [s]) else p)
    else acc ++ [(c, [s])]) []

/-- The text written by `RequirementsAnalyzer.save_implementation_plan`:
a header, then per category a section header and one checkbox line per
step. -/
def save_implementation_plan (steps : List Step) : List Char :=
  "# Implementation Plan\n\n".data ++
  (group_categories steps).foldl (fun acc g =>
    acc ++ "## ".data ++ capitalizeStr g.1 ++ " Implementation\n\n".data ++
    g.2.foldl (fun a s =>
      a ++ (if s.completed then "[x]".data else "[ ]".data) ++
      " ".data ++ s.description ++ "\n".data) [] ++
    "\n".data) []

/-! ### `slack_integration.py`: `SlackIntegration` -/

/-- `SlackIntegration.send_progress_update`, percentage computation:
`int(len(completed)/total*100) if total > 0 else 0`, with the division and
multiplication performed in binary64. -/
def progress_percentage (ncompleted npending : Nat) : Int :=
  if 0 < ncompleted + npending then
    pyTrunc (pyMul
      (pyDiv (Frac.ofNat ncompleted) ((Frac.ofNat ncompleted).add (Frac.ofNat npending)))
      (Frac.ofNat 100))
  else 0

/-- The message blocks built by `SlackIntegration.send_progress_update`.
Each constructor corresponds to one `blocks.append` site in the source
and carries the text that site renders. -/
inductive SBlock where
  | header (text : List Char)
  | progress (text : List Char)
  | completed_tasks (text : List Char)
  | pending_tasks (text : List Char)
  | next_task (text : List Char)
  | next_task_actions (step_id : List Char)
deriving DecidableEq

/-- The `*Progress:*` section text. -/
def progress_text (ncompleted npending : Nat) : List Char :=
  "*Progress:* ".data ++ intChars (progress_percentage ncompleted npending) ++
  "% complete (".data ++ natChars ncompleted ++ "/".data ++
  natChars (ncompleted + npending) ++ " tasks)".data

/-- The `*Completed Tasks:*` section text (first 5 steps, then an
overflow suffix). -/
def completed_tasks_text (completed : List Step) : List Char :=
  "*Completed Tasks:*\n".data ++
  (completed.take 5).foldl (fun a s => a ++ "✅ ".data ++ s.description ++ "\n".data) [] ++
  (if 5 < completed.length then
    "_...and ".data ++ natChars (completed.length - 5) ++ " more_\n".data
   else [])

/-- The `*Pending Tasks:*` section text (first 5 steps, then an overflow
suffix). -/
def pending_tasks_text (pending : List Step) : List Char :=
  "*Pending Tasks:*\n".data ++
  (pending.take 5).foldl (fun a s => a ++ "⬜ ".data ++ s.description ++ "\n".data) [] ++
  (if 5 < pending.length then
    "_...and ".data ++ natChars (pending.length - 5) ++ " more_\n".data
   else [])

/-- The block list built by `SlackIntegration.send_progress_update`. -/
def send_progress_update_blocks (completed pending : List Step) : List SBlock :=
  [SBlock.header "Implementation Progress Update".data,
   SBlock.progress (progress_text completed.length pending.length)]
  ++ (if completed.isEmpty then [] else [SBlock.completed_tasks (completed_tasks_text completed)])
  ++ (if pending.isEmpty then [] else [SBlock.pending_tasks (pending_tasks_text pending)])
  ++ (match pending with
      | [] => []
      | s :: _ =>
        [SBlock.next_task ("*Next Task:* ".data ++ s.description),
         SBlock.next_task_actions (getId s)])

/-- `SlackIntegration.send_progress_update`: with no client the message is
not sent and `None` is returned; otherwise the message (percentage and
blocks) is posted.  Transport errors are out of scope of the claims. -/
def send_progress_update (has_client : Bool) (completed pending : List Step) :
    Option (Int × List SBlock) :=
  if has_client then
    some (progress_percentage completed.length pending.length,
          send_progress_update_blocks completed pending)
  else none

/-! ### `clean_coder_planner.py`: `CleanCoderPlanner` -/

/-- The pending-step filter used throughout `CleanCoderPlanner`
(`not step.get("completed", False)`). -/
def pending_of (steps : List Step) : List Step := steps.filter (fun s => !s.completed)

/-- Python `min(steps, key=lambda s: s.get("order", 0))`: the first step
with minimal order. -/
def min_by_order : List Step → Option Step
  | [] => none
  | s :: rest => some (rest.foldl (fun best x =>
      if getOrder x < getOrder best then x else best) s)

/-- `CleanCoderPlanner.send_next_implementation_request`, selection part:
`None` when nothing is pending, otherwise the pending step with the
lowest order. -/
def send_next_implementation_request (steps : List Step) : Option Step :=
  let pending := pending_of steps
  if pending.isEmpty then none else min_by_order pending

/-- `CleanCoderPlanner._get_context_for_step`.  The happy path returns the
context string.  When any completed related step carries a
`relevant_file`, the source evaluates `set(relevant_files)[:5]`, and
slicing a Python set raises `TypeError`; that exception is the `error`
case. -/
def get_context_for_step (steps : List Step) (step : Step) :
    Except (List Char) (List Char) :=
  let category := getCategory step
  let related := steps.filter (fun s =>
    (s.category == some category) && !(s.id == step.id))
  let completed_related := related.filter (fun s => s.completed)
  let ctx0 := "This task is part of the ".data ++ capitalizeStr category ++
    " implementation.\n\n".data
  let ctx1 :=
    if completed_related.isEmpty then ctx0
    else
      ctx0 ++ "Related completed tasks:\n".data ++
      (completed_related.take 3).foldl (fun a s =>
        a ++ "- ".data ++ s.description ++ "\n".data) [] ++
      (if 3 < completed_related.length then
        "- ...and ".data ++ natChars (completed_related.length - 3) ++ " more\n".data
       else []) ++
      "\n".data
  let relevant_files := completed_related.filterMap (fun s => s.relevant_file)
  if relevant_files.isEmpty then Except.ok ctx1
  else Except.error "TypeError: set object is not subscriptable".data

/-! ### Helper lemmas -/

theorem ilog2go_one (fuel : Nat) (n : Int) (hn : 0 < n) (hf : fuel ≠ 0) :
    ilog2go fuel ⟨n, n⟩ = 0 := by
  cases fuel with
  | zero => exact absurd rfl hf
  | succ f =>
    have h1 : Frac.blt ⟨n, n⟩ ⟨1, 1⟩ = false := by
      simp [Frac.blt]
    have h2 : Frac.ble ⟨2, 1⟩ ⟨n, n⟩ = false := by
      simp [Frac.ble]
      omega
    simp [ilog2go, h1, h2]

theorem roundDouble_self_div (n : Int) (hn : 0 < n) :
    roundDouble ⟨n, n⟩ = ⟨1 * ((2 : Int) ^ 52 * 1), 1 * (1 * (2 : Int) ^ 52)⟩ := by
  have hne : (Frac.mk n n).num ≠ 0 := by simp; omega
  have hblt : Frac.blt ⟨n, n⟩ ⟨0, 1⟩ = false := by
    simp [Frac.blt]; omega
  have hlog : ilog2 ⟨n, n⟩ = 0 := ilog2go_one 4200 n hn (by decide)
  rw [roundDouble]
  rw [if_neg hne]
  simp only [hblt, Bool.false_eq_true, if_false]
  rw [hlog]
  have hpow : pow2 (0 - 52) = ⟨1, (2 : Int) ^ 52⟩ := by decide
  rw [hpow]
  have hdiv : (Frac.mk n n).div ⟨1, (2 : Int) ^ 52⟩ = ⟨n * 2 ^ 52, n * 1⟩ := by
    simp [Frac.div, Frac.mul, Frac.inv]
  rw [hdiv]
  have hrnte : rnte ⟨n * 2 ^ 52, n * 1⟩ = 2 ^ 52 := by
    have hfl : (Frac.mk (n * 2 ^ 52) (n * 1)).floor = 2 ^ 52 := by
      simp only [Frac.floor, mul_one]
      rw [mul_comm]
      exact Int.mul_fdiv_cancel _ (by omega)
    rw [rnte, hfl]
    have hr : (Frac.mk (n * 2 ^ 52) (n * 1)).sub (Frac.ofInt (2 ^ 52)) =
        ⟨n * 2 ^ 52 * 1 - 2 ^ 52 * (n * 1), n * 1 * 1⟩ := by
      simp [Frac.sub, Frac.ofInt]
    rw [hr]
    have hb : Frac.blt ⟨n * 2 ^ 52 * 1 - 2 ^ 52 * (n * 1), n * 1 * 1⟩ ⟨1, 2⟩ = true := by
      simp [Frac.blt]
      omega
    rw [if_pos hb]
  rw [hrnte]
  simp [Frac.mul, Frac.ofInt]

theorem pct_all_completed (n : Nat) (hn : n ≠ 0) : progress_percentage n 0 = 100 := by
  rw [progress_percentage, if_pos (by omega)]
  have hcond : ¬ ((n : Int) < 0) := by omega
  have harg : (Frac.ofNat n).div ((Frac.ofNat n).add (Frac.ofNat 0)) =
      ⟨(n : Int), (n : Int)⟩ := by
    simp [Frac.ofNat, Frac.add, Frac.div, Frac.mul, Frac.inv, hcond]
  rw [pyDiv, harg, roundDouble_self_div (n : Int) (by omega)]
  decide

/-! ### Claims -/

/-- C1: `analyze_implementation_progress` never changes a step whose
`completed` field is already `true` back to `false`: every step entering
with `completed = true` leaves with `completed = true`, for every input
step list and every git history. -/
theorem C1_no_completed_downgrade (commit_messages changed_files : List (List Char))
    (file_content : List Char → List Char) (steps : List Step) (i : Nat) (s : Step)
    (hs : steps[i]? = some s) (hc : s.completed = true) :
    ((analyze_implementation_progress commit_messages changed_files file_content
      steps)[i]?).map (fun t => t.completed) = some true := by
  simp [analyze_implementation_progress, List.getElem?_map, hs, update_step, hc]

/-- C1 witness at a concrete one-step list. -/
theorem C1_no_completed_downgrade_witness :
    ((analyze_implementation_progress [] [] (fun _ => [])
      [{ description := "x".data, completed := true }])[0]?).map
      (fun t => t.completed) = some true :=
  C1_no_completed_downgrade [] [] (fun _ => []) _ 0 _ rfl rfl

/-- C2: `_has_enough_keywords` returns `true` on a lower-cased text and a
keyword set iff the set is non-empty and at least `ceil(0.5 * |keywords|)`
(that is, `(|keywords| + 1) / 2` in integers) of the keywords occur as
substrings of that lower-cased text; an empty keyword set never
satisfies any text. -/
theorem C2_keyword_threshold (text : List Char) (keywords : List (List Char)) :
    has_enough_keywords (lowerStr text) keywords = true ↔
    (0 < keywords.length ∧
      (keywords.length + 1) / 2 ≤
        keywords.countP (fun k => listHas (lowerStr text) k)) := by
  unfold has_enough_keywords
  rcases keywords with _ | ⟨k, ks⟩
  · simp
  · have hcond : ¬ (((k :: ks).length : Int) < 0) := by omega
    have hp : (k :: ks).countP (fun k => listHas (lowerStr text) k) ≤ (k :: ks).length :=
      List.countP_le_length _
    simp only [List.isEmpty_cons, Bool.false_eq_true, if_false,
      Frac.ble, Frac.div, Frac.mul, Frac.inv, Frac.ofNat, hcond, if_false,
      decide_eq_true_eq]
    constructor
    · intro h
      constructor
      · simp
      · omega
    · intro h
      omega

/-- A completed step, as saved into a plan file. -/
def c3_step : Step := { description := "Add login".data, completed := true }

/-- C3: the save/re-read round trip.  The saved plan renders each step as
a checkbox line without a leading list bullet, so the re-reading side
(`_extract_implementation_steps`, which requires `[-*+]` before the
checkbox) recovers no steps at all; the pipeline then falls back to
synthesizing a fresh incomplete step from the rendered text, losing the
`[x]` completion state and the original category. -/
theorem C3_roundtrip_failure :
    extract_implementation_steps (save_implementation_plan [c3_step]) = [] ∧
    generate_implementation_steps
      [("implementation_plan.md".data, save_implementation_plan [c3_step])] =
      [{ description := "Implement [x] Add login".data, completed := false,
         source := some "generated".data, category := some "technical".data }] :=
  ⟨rfl, rfl⟩

/-- The pending step whose implementation request is being formatted. -/
def c4_pending : Step :=
  { description := "Implement user profile page".data, completed := false,
    category := some "functional".data, id := some "step-2".data }

/-- A completed related step carrying a `relevant_file`. -/
def c4_completed : Step :=
  { description := "Implement login".data, completed := true,
    category := some "functional".data, id := some "step-1".data,
    relevant_file := some "src/auth.py".data }

/-- C4: `_get_context_for_step` on a step list in which one completed
related step carries a `relevant_file`: instead of returning a context
string with the file hints, the code reaches `set(relevant_files)[:5]`
and raises `TypeError` (a Python set is not subscriptable). -/
theorem C4_context_type_error :
    get_context_for_step [c4_completed, c4_pending] c4_pending =
      Except.error "TypeError: set object is not subscriptable".data :=
  rfl

/-- C5 counterexample: `add` is itself in the analyzer's stop-word list,
so it is not among the keywords extracted from "Implement Add login";
the claimed keyword set `{add, login}` is wrong. -/
theorem C5_add_is_stop_word :
    ¬ ("add".data ∈ extract_keywords (lowerStr "Implement Add login".data)) := by
  decide

/-- C5 (amended): keyword extraction for the step "Implement Add login"
yields exactly `{login}` ("implement" and "add" are stop words), the
commit message "Implement add login flow" matches 1 of 1 keywords
(`>= 0.5`), and `analyze_implementation_progress` marks the step
completed with `completion_method = commit_message`. -/
theorem C5_commit_message_completion :
    extract_keywords (lowerStr "Implement Add login".data) = ["login".data] ∧
    analyze_implementation_progress ["Implement add login flow".data] [] (fun _ => [])
      [{ description := "Implement Add login".data, completed := false }] =
      [{ description := "Implement Add login".data, completed := true,
         completion_method := some "commit_message".data }] :=
  ⟨rfl, rfl⟩

/-- The one-file documentation folder of the C6 scenario. -/
def c6_docs : List (List Char × List Char) :=
  [("features.md".data, "## Features\n- Add login\n- Add logout".data)]

/-- C6 counterexample: the `functional` category extracted from the
scenario folder has three elements, not the claimed two: besides the two
bullet items, `_extract_list_items` also collects the whole
blank-line-delimited paragraph "- Add login\n- Add logout". -/
theorem C6_functional_not_two_items :
    ¬ ((extract_requirements c6_docs).functional.length = 2) := by
  decide

/-- C6 (amended): the scenario folder yields requirement category
`functional` equal to the three-element set {"Add login", "Add logout",
"- Add login\n- Add logout"} (the paragraph block is extracted alongside
the two bullet items), and step generation produces exactly three steps
"Implement X", one per requirement, all with `completed = false`. -/
theorem C6_scenario_extraction :
    (extract_requirements c6_docs).functional.length = 3 ∧
    "Add login".data ∈ (extract_requirements c6_docs).functional ∧
    "Add logout".data ∈ (extract_requirements c6_docs).functional ∧
    "- Add login\n- Add logout".data ∈ (extract_requirements c6_docs).functional ∧
    (generate_implementation_steps c6_docs).length = 3 ∧
    "Implement Add login".data ∈
      (generate_implementation_steps c6_docs).map (fun s => s.description) ∧
    "Implement Add logout".data ∈
      (generate_implementation_steps c6_docs).map (fun s => s.description) ∧
    "Implement - Add login\n- Add logout".data ∈
      (generate_implementation_steps c6_docs).map (fun s => s.description) ∧
    (generate_implementation_steps c6_docs).all (fun s => !s.completed) = true := by
  decide

/-- C7 counterexample: at 29 completed and 71 pending the percentage
computed by the code (in binary64 floats) is 28, while the integer floor
of `completed/total*100` is 29: `29/100` rounds below `0.29`, and the
subsequent multiplication by 100 stays below 29, which `int()` truncates
to 28. -/
theorem C7_float_below_floor :
    progress_percentage 29 71 = 28 ∧ ((100 * 29) / (29 + 71) : Nat) = 29 := by
  exact ⟨by decide, by decide⟩

set_option maxRecDepth 100000 in
set_option maxHeartbeats 4000000 in
/-- C7 (amended): the progress percentage is the binary64 value of
`completed/total*100` truncated by `int()`, and 0 when the total is zero.
For every total up to 49 (including 3 completed of 7 total, which yields
42, and the zero total) this equals the integer floor of
`completed/total*100`; for larger totals the float computation can fall
one below the exact floor, e.g. 29 completed of 100 total yields 28. -/
theorem C7_percentage_floor_small_totals :
    (∀ ncompleted npending : Nat, ncompleted + npending ≤ 49 →
      progress_percentage ncompleted npending =
        (((100 * ncompleted) / (ncompleted + npending) : Nat) : Int)) ∧
    progress_percentage 29 71 = 28 := by
  refine ⟨?_, by decide⟩
  have H : ∀ c < 50, ∀ p < 50, c + p ≤ 49 →
      progress_percentage c p = (((100 * c) / (c + p) : Nat) : Int) := by decide
  intro c p h
  exact H c (by omega) p (by omega) h

/-- C7 witness: 3 completed of 7 total yields the exact floor, 42. -/
theorem C7_percentage_floor_small_totals_witness :
    progress_percentage 3 4 = (((100 * 3) / (3 + 4) : Nat) : Int) ∧
    (((100 * 3) / (3 + 4) : Nat) : Int) = 42 :=
  ⟨C7_percentage_floor_small_totals.1 3 4 (by decide), by decide⟩

/-- Marker for the two blocks appended by the `if pending_steps:`
next-task branch of `send_progress_update`. -/
def is_next_task_block : SBlock → Bool
  | SBlock.next_task _ => true
  | SBlock.next_task_actions _ => true
  | _ => false

/-- C8 counterexample: the empty step list has zero pending steps, and
its progress update is sent and reports 0 percent (the code returns 0
for a zero total), not the claimed 100 percent. -/
theorem C8_empty_list_reports_zero :
    (send_progress_update true [] []).map Prod.fst = some 0 ∧
    ¬ ((send_progress_update true [] []).map Prod.fst = some 100) := by
  exact ⟨by decide, by decide⟩

/-- C8 (amended): for every step list with zero pending steps, the
progress update is still sent, contains no next-task block, and
`send_next_implementation_request` returns `none`; the reported
percentage is 100 when the list is non-empty and 0 for the empty list. -/
theorem C8_all_completed_update (steps : List Step)
    (hpend : pending_of steps = []) :
    (send_progress_update true (steps.filter (fun s => s.completed)) []).isSome = true ∧
    (send_progress_update_blocks (steps.filter (fun s => s.completed)) []).all
      (fun b => !is_next_task_block b) = true ∧
    send_next_implementation_request steps = none ∧
    (steps ≠ [] →
      progress_percentage (steps.filter (fun s => s.completed)).length 0 = 100) ∧
    (steps = [] →
      progress_percentage (steps.filter (fun s => s.completed)).length 0 = 0) := by
  refine ⟨rfl, ?_, ?_, ?_, ?_⟩
  · simp only [send_progress_update_blocks, List.isEmpty_nil, if_true,
      List.all_append]
    cases h : (steps.filter (fun s => s.completed)).isEmpty <;>
      simp [is_next_task_block]
  · simp [send_next_implementation_request, hpend]
  · intro hne
    have hall : ∀ s ∈ steps, s.completed = true := by
      intro s hs
      have := List.filter_eq_nil_iff.mp hpend s hs
      simpa using this
    have hfilter : steps.filter (fun s => s.completed) = steps :=
      List.filter_eq_self.mpr (by intro a ha; simpa using hall a ha)
    have hlen : (steps.filter (fun s => s.completed)).length ≠ 0 := by
      rw [hfilter]
      simpa using hne
    exact pct_all_completed _ hlen
  · intro h
    subst h
    decide

/-- A fully completed one-step list. -/
def c8_step : Step := { description := "Set up project".data, completed := true }

/-- C8 witness at two concrete inputs covering both percentage cases: the
fully-completed one-step list (update sent, no next-task block, next
request `none`, 100 percent) and the empty list (0 percent). -/
theorem C8_all_completed_update_witness :
    ((send_progress_update true ([c8_step].filter (fun s => s.completed)) []).isSome = true ∧
     (send_progress_update_blocks ([c8_step].filter (fun s => s.completed)) []).all
       (fun b => !is_next_task_block b) = true ∧
     send_next_implementation_request [c8_step] = none ∧
     progress_percentage ([c8_step].filter (fun s => s.completed)).length 0 = 100) ∧
    progress_percentage (([] : List Step).filter (fun s => s.completed)).length 0 = 0 :=
  have h1 := C8_all_completed_update [c8_step] (by decide)
  have h2 := C8_all_completed_update [] (by decide)
  ⟨⟨h1.1, h1.2.1, h1.2.2.1, h1.2.2.2.1 (by decide)⟩, h2.2.2.2.2 rfl⟩

/-- C9: a missing or unreadable documentation folder (the failing listing)
yields an empty document set, hence an empty requirement set (every
category list empty) and an empty implementation-step list; the model is
total, mirroring the `try`/`except` blocks that keep any exception from
propagating. -/
theorem C9_missing_docs_folder :
    load_docs (Except.error ()) = [] ∧
    extract_requirements (load_docs (Except.error ())) = ⟨[], [], [], []⟩ ∧
    generate_implementation_steps_from_listing (Except.error ()) = [] :=
  ⟨rfl, rfl, rfl⟩

/-- The category precedence order of `extract_requirements`, paired with
each category's title keywords, as the specification describes it. -/
def categories_in_order : List (Cat × List (List Char)) :=
  [(Cat.functional, functional_keywords), (Cat.technical, technical_keywords),
   (Cat.ui, ui_keywords), (Cat.architecture, architecture_keywords)]

/-- Specification-side classification: the first category in the fixed
precedence order whose keyword set matches the title. -/
def classify_spec (title : List Char) : Option Cat :=
  (categories_in_order.find? (fun pr =>
    pr.2.any (fun k => listHas (lowerStr title) k))).map Prod.fst

/-- C10: the classification chain of `extract_requirements` assigns a
subsection to at most one category, the first matching one in the fixed
precedence order functional, technical, ui, architecture; in particular
the title "Feature design", which matches both the functional keyword
"feature" and the architecture keyword "design", is classified only as
functional, and a document with that section title contributes its items
only to the functional list. -/
theorem C10_category_precedence :
    (∀ title : List Char, categorize_title title = classify_spec title) ∧
    categorize_title "Feature design".data = some Cat.functional ∧
    architecture_keywords.any
      (fun k => listHas (lowerStr "Feature design".data) k) = true ∧
    (extract_requirements [("doc.md".data, "## Feature design\n- Item one".data)]).functional.length = 2 ∧
    "Item one".data ∈
      (extract_requirements [("doc.md".data, "## Feature design\n- Item one".data)]).functional ∧
    (extract_requirements [("doc.md".data, "## Feature design\n- Item one".data)]).technical = [] ∧
    (extract_requirements [("doc.md".data, "## Feature design\n- Item one".data)]).ui = [] ∧
    (extract_requirements [("doc.md".data, "## Feature design\n- Item one".data)]).architecture = [] := by
  refine ⟨?_, by decide, by decide, by decide, by decide, by decide, by decide, by decide⟩
  intro title
  unfold categorize_title classify_spec categories_in_order
  cases hf : functional_keywords.any (fun k => listHas (lowerStr title) k) <;>
  cases ht : technical_keywords.any (fun k => listHas (lowerStr title) k) <;>
  cases hu : ui_keywords.any (fun k => listHas (lowerStr title) k) <;>
  cases ha : architecture_keywords.any (fun k => listHas (lowerStr title) k) <;>
  simp [List.find?, hf, ht, hu, ha]
